import Mathlib

/-
Verification of the logjam heat logger (src/jam.go).

Bytes are modelled as `List Nat` (Go strings and []byte are byte sequences);
Unix seconds and Go int64/int fields are modelled as `Int`.  The output sink
is modelled by an abstract handle (`out : Nat`) plus a write oracle
`writeFn : List Nat → Option String` passed to `Output` ( `none` = success,
`some e` = the write error returned by the destination).
-/

namespace Logjam

/-! ### Color escape constants (src/jam.go lines 12-16) -/

/-- Bytes of the escape string reset = "\x1b[0m". -/
def reset : List Nat := [27, 91, 48, 109]

/-- Bytes of the escape string yellow = "\x1b[1;33m". -/
def yellow : List Nat := [27, 91, 49, 59, 51, 51, 109]

/-- Bytes of the escape string red = "\x1b[1;31m". -/
def red : List Nat := [27, 91, 49, 59, 51, 49, 109]

/-- Bytes of the escape string announcement = "\x1b[1;32m". -/
def announcement : List Nat := [27, 91, 49, 59, 51, 50, 109]

/-! ### Banner strings, as byte lists (ASCII) -/

/-- Bytes of the banner string queued on Cold -> HeatingUp
(the string literal at src/jam.go line 130). -/
def heatingUpBanner : List Nat :=
  [73, 116, 39, 115, 32, 104, 101, 97, 116, 105, 110, 103, 32, 117, 112, 33, 33, 33, 32]

/-- Bytes of the banner string queued on HeatingUp -> OnFire
(the string literal at src/jam.go line 149). -/
def onFireBanner : List Nat :=
  [73, 116, 39, 115, 32, 111, 110, 32, 102, 105, 114, 101, 33, 33, 33, 32]

/-- Bytes of the banner string queued when the blazing condition holds
(the string literal at src/jam.go line 165). -/
def blazingBanner : List Nat :=
  [66, 111, 111, 109, 115, 104, 97, 107, 97, 108, 97, 107, 97, 33, 33, 33, 32]

/-! ### Color transform functions (src/jam.go lines 24-60) -/

/-- Function `blazing` (src/jam.go lines 24-30): wraps the whole text in one solid
red escape and appends a reset.  Despite its name this is the SOLID wrap. -/
def blazing (txt : List Nat) : List Nat :=
  red ++ txt ++ reset

/-- Function `heating` (src/jam.go lines 32-38): wraps the whole text in one solid
yellow escape and appends a reset. -/
def heating (txt : List Nat) : List Nat :=
  yellow ++ txt ++ reset

/-- Function `announce` (src/jam.go lines 40-46): wraps the banner text in the
announcement (green) escape and appends a reset. -/
def announce (a : List Nat) : List Nat :=
  announcement ++ a ++ reset

/-- Function `fire` (src/jam.go lines 48-60): for each byte at index i emits red
(i even) or yellow (i odd) followed by the byte, sequentially into the
buffer, then appends a reset.  Despite its name this is the ALTERNATING
two-tone transform.  The fold mirrors the Go loop writing into bytes.Buffer:
each iteration appends the color escape then the single byte. -/
def fire (txt : List Nat) : List Nat :=
  (txt.enum.foldl
    (fun buf p => buf ++ ((if p.1 % 2 == 0 then red else yellow) ++ [p.2])) [])
  ++ reset

/-! ### Heat states and the stored transform -/

/-- The four heat states (src/jam.go lines 18-22). -/
inductive HeatState where
  | cold
  | coolingDown
  | heatingUp
  | onFire
deriving DecidableEq, Repr

/-- Tag for the function-valued `heat` field: the Go code only ever stores
nil, `heating`, `fire` or `blazing` there, so we model it as an option of
this tagged variant. -/
inductive Heat where
  | heating
  | fire
  | blazing
deriving DecidableEq, Repr

/-- Applies the transform denoted by a `Heat` tag. -/
def applyHeat : Heat → List Nat → List Nat
  | Heat.heating, txt => heating txt
  | Heat.fire, txt => fire txt
  | Heat.blazing, txt => blazing txt

/-! ### The Logger struct (src/jam.go lines 62-78)

The mutex is concurrency-only and not modelled; every operation below is
the body that runs under the lock.  `out` is an abstract sink handle.
The Go field `prefix` is a Lean keyword, so it is named `pfx` here. -/

structure Logger where
  pfx : String
  term : Bool
  out : Nat
  buf : List Nat
  state : HeatState
  period : Int
  firePeriod : Int
  rate : Int
  rateHeatingUp : Int
  rateOnFire : Int
  periodsBlazing : Int
  announce : List Nat
  heat : Option Heat
deriving DecidableEq, Repr

/-- Constructor `New` (src/jam.go lines 80-90): fresh logger in Cold state, terminal
mode on, thresholds 10 / 20 / 5.  Unmentioned Go fields get their zero
values (0, empty string, nil). -/
def New (out : Nat) (pfx : String) : Logger :=
  { pfx := pfx
    term := true
    out := out
    buf := []
    state := HeatState.cold
    period := 0
    firePeriod := 0
    rate := 0
    rateHeatingUp := 10
    rateOnFire := 20
    periodsBlazing := 5
    announce := []
    heat := none }

/-! ### Configuration accessors (src/jam.go lines 92-114, 245-264) -/

/-- Setter `SetOutput` (src/jam.go lines 92-96). -/
def SetOutput (l : Logger) (w : Nat) : Logger := { l with out := w }

/-- Setter `SetHeatingUp` (src/jam.go lines 98-102). -/
def SetHeatingUp (l : Logger) (hup : Int) : Logger := { l with rateHeatingUp := hup }

/-- Setter `SetOnFire` (src/jam.go lines 104-108). -/
def SetOnFire (l : Logger) (of : Int) : Logger := { l with rateOnFire := of }

/-- Setter `SetBlazing` (src/jam.go lines 110-114). -/
def SetBlazing (l : Logger) (b : Int) : Logger := { l with periodsBlazing := b }

/-- Getter for the stored Go field named at src/jam.go line 64; the Go method (src/jam.go lines 246-250); `Prefix` is spelled
`getPfx` here because the Go name is a Lean keyword. -/
def getPfx (l : Logger) : String := l.pfx

/-- Setter `SetPrefix` (src/jam.go lines 253-257), spelled `setPfx` here. -/
def setPfx (l : Logger) (p : String) : Logger := { l with pfx := p }

/-- Getter `Writer` (src/jam.go lines 260-264). -/
def Writer (l : Logger) : Nat := l.out

/-! ### The heat state machine (src/jam.go lines 116-170) -/

/-- Function `updateHeat` (src/jam.go lines 116-170).  `now` is the Unix second
(the Go code computes `now.Unix()` and uses nothing else of the time).
The structure mirrors the Go body exactly: increment `rate`; if the second
bucket is unchanged return; otherwise record the new bucket, run the
switch on the state, and reset `rate` to 0. -/
def updateHeat (l : Logger) (now : Int) : Logger :=
  let l := { l with rate := l.rate + 1 }
  let period := now
  if l.period == period then l
  else
    let l := { l with period := period }
    let l :=
      match l.state with
      | HeatState.cold =>
        let l := { l with heat := none }
        if l.rate > l.rateHeatingUp then
          { l with announce := heatingUpBanner
                   state := HeatState.heatingUp
                   heat := some Heat.heating }
        else l
      | HeatState.coolingDown =>
        if l.rate > l.rateHeatingUp then
          { l with heat := some Heat.heating, state := HeatState.heatingUp }
        else if l.rate < l.rateHeatingUp then
          { l with heat := none, state := HeatState.cold }
        else l
      | HeatState.heatingUp =>
        let l := { l with heat := some Heat.heating }
        if l.rate > l.rateOnFire then
          { l with announce := onFireBanner
                   state := HeatState.onFire
                   firePeriod := period
                   heat := some Heat.fire }
        else l
      | HeatState.onFire =>
        let l := { l with heat := some Heat.fire }
        if l.rate < l.rateOnFire then
          { l with state := HeatState.coolingDown, heat := some Heat.heating }
        else if l.firePeriod + l.periodsBlazing < period then
          { l with announce := blazingBanner, heat := some Heat.blazing }
        else l
    { l with rate := 0 }

/-! ### Output (src/jam.go lines 172-198) -/

/-- The newline test at src/jam.go line 184:
`len(s) == 0 || s[len(s)-1] != '\n'`. -/
def needsNl (s : List Nat) : Bool :=
  s.isEmpty || !(s.getLast? == some 10)

/-- The banner part of the output buffer (src/jam.go lines 179-182): the
pending announcement wrapped in the announcement color, or nothing. -/
def bannerPart (l : Logger) : List Nat :=
  if l.announce = [] then [] else announce l.announce

/-- The message part of the output buffer without the trailing newline
(src/jam.go lines 186-190): the active transform is applied only when one
is set AND terminal mode is on. -/
def renderMsg (l : Logger) (s : List Nat) : List Nat :=
  match l.heat, l.term with
  | some h, true => applyHeat h s
  | _, _ => s

/-- Function `Output` (src/jam.go lines 172-198): clear the scratch buffer, advance
the heat machine, emit-and-clear any pending banner, append the (possibly
transformed) message and a trailing newline if missing, write the buffer
to the destination in one call and return that write's error.  Returns the
updated logger (whose `buf` holds exactly the bytes written) and the error. -/
def Output (l : Logger) (now : Int) (s : List Nat)
    (writeFn : List Nat → Option String) : Logger × Option String :=
  let l := { l with buf := [] }
  let l := updateHeat l now
  let bp := bannerPart l
  let l := if l.announce = [] then l else { l with announce := [] }
  let buf := bp ++ renderMsg l s ++ (if needsNl s then [10] else [])
  let l := { l with buf := buf }
  (l, writeFn buf)

/-! ### Public operations, for reachability (src/jam.go lines 92-114,
200-264).  Print/Printf/Println and the Fatal/Panic variants all funnel
into `Output` with some message string, so their state effect is that of
`Output`; the getters do not change state. -/

/-- One public state-changing operation on the logger.  `output` covers
Output and every convenience wrapper (Printf, Print, Println, Fatal*,
Panic*), which only differ in how the message string is built. -/
inductive Op where
  | output (now : Int) (s : List Nat)
  | setOutput (w : Nat)
  | setHeatingUp (h : Int)
  | setOnFire (f : Int)
  | setBlazing (b : Int)
  | setPfxOp (p : String)
deriving Repr

/-- State effect of one public operation (the write oracle does not affect
the state, so `output` uses a trivial oracle). -/
def applyOp (l : Logger) : Op → Logger
  | Op.output now s => (Output l now s (fun _ => none)).1
  | Op.setOutput w => SetOutput l w
  | Op.setHeatingUp h => SetHeatingUp l h
  | Op.setOnFire f => SetOnFire l f
  | Op.setBlazing b => SetBlazing l b
  | Op.setPfxOp p => setPfx l p

/-- Run a sequence of public operations. -/
def runOps (l : Logger) (ops : List Op) : Logger :=
  ops.foldl applyOp l

/-! ### Concrete instances used in counterexamples and witnesses -/

/-- Write oracle of a destination whose writes always succeed. -/
def wOk : List Nat → Option String := fun _ => none

/-- A burst of n emit calls during one second, each with message "x". -/
def burst (now : Int) (n : Nat) : List Op :=
  List.replicate n (Op.output now [120])

/-- Logger reached from New by lowering the thresholds through the public
setters (heating-up 0, on-fire 1, blazing period 1) and then emitting
twice per second during seconds 1..3: it enters HeatingUp at the second-1
evaluation, OnFire at the second-2 evaluation (so firePeriod = 2), and
stays OnFire with rate 2 >= onFireRate from then on. -/
def lC1pre : Logger :=
  runOps (New 0 "") ([Op.setHeatingUp 0, Op.setOnFire 1, Op.setBlazing 1] ++
    burst 1 2 ++ burst 2 2 ++ burst 3 2)

/-- The same history continued through second 4, the second at which the
blazing banner is first queued and emitted. -/
def lC1post : Logger := runOps lC1pre (burst 4 2)

/-- An OnFire logger meeting the blazing condition at second 6. -/
def lC2blaze : Logger :=
  { New 0 "" with state := HeatState.onFire, period := 5, firePeriod := 0,
                  rate := 25 }

/-- A HeatingUp logger about to enter OnFire at second 1. -/
def lC2entry : Logger :=
  { New 0 "" with state := HeatState.heatingUp, period := 0, rate := 25 }

/-- A logger with terminal mode off and a pending one-byte banner, sampled
in the same second (period 7) so the state machine does not re-evaluate. -/
def lC3off : Logger :=
  { New 0 "" with term := false, announce := [66], period := 7 }

/-- A fresh logger already in period 7, used for newline counterexamples. -/
def lC7plain : Logger := { New 0 "" with period := 7 }

/-- An OnFire logger one second before a blazing evaluation at second 10. -/
def lw1 : Logger :=
  { New 0 "" with state := HeatState.onFire, period := 9, firePeriod := 3,
                  rate := 20 }

/-- An OnFire logger whose rate has dropped well below the on-fire rate. -/
def lw5 : Logger :=
  { New 0 "" with state := HeatState.onFire, period := 0, rate := 5 }

/-- Logger reached from New by lowering the heating threshold to 0 and
emitting once at second 1: it is HeatingUp with the warming transform. -/
def lw10 : Logger := runOps (New 0 "") [Op.setHeatingUp 0, Op.output 1 [120]]

/-! ### Spec-side transform descriptions (for the refinement claim C2)

These two definitions follow the words of the spec, not the Go code:
they are the comparison side of the transform-selection claim. -/

/-- Modelled from the spec: the alternating-byte-parity transform, which
"colors every other input byte with one of two colors ... then appends a
reset sequence". -/
def specAlternating (c1 c2 rst : List Nat) (txt : List Nat) : List Nat :=
  ((txt.enum.map fun p => (if p.1 % 2 == 0 then c1 else c2) ++ [p.2]).flatten) ++ rst

/-- Modelled from the spec: the wrap-whole-string-in-one-escape transform. -/
def specSolidWrap (c rst : List Nat) (txt : List Nat) : List Nat :=
  c ++ txt ++ rst

/-- Number of trailing newline bytes of a byte sequence. -/
def trailingNewlines (bs : List Nat) : Nat :=
  (bs.reverse.takeWhile (fun b => b == 10)).length

/-! ### Helper lemmas -/

theorem foldl_append_eq {A B : Type} (g : A -> List B) :
    forall (xs : List A) (acc : List B),
      xs.foldl (fun b p => b ++ g p) acc = acc ++ (xs.map g).flatten := by
  intro xs
  induction xs with
  | nil => intro acc; simp
  | cons x xs ih => intro acc; simp [ih]

/-- Transform `fire` is exactly the alternating two-tone transform of the
spec, with red on even positions and yellow on odd ones. -/
theorem fire_eq_specAlternating (txt : List Nat) :
    fire txt = specAlternating red yellow reset txt := by
  simp [fire, specAlternating, foldl_append_eq]

/-- Transform `blazing` is exactly the solid red wrap of the spec. -/
theorem blazing_eq_specSolidWrap (txt : List Nat) :
    blazing txt = specSolidWrap red reset txt := rfl

theorem updateHeat_same_period (l : Logger) (now : Int) (h : l.period = now) :
    updateHeat l now = { l with rate := l.rate + 1 } := by
  simp [updateHeat, h]

theorem updateHeat_onFire_char (l : Logger) (now : Int) (hp : l.period ≠ now)
    (hs : l.state = HeatState.onFire) :
    updateHeat l now =
      if l.rate + 1 < l.rateOnFire then
        { l with rate := 0, period := now, state := HeatState.coolingDown,
                 heat := some Heat.heating }
      else if l.firePeriod + l.periodsBlazing < now then
        { l with rate := 0, period := now, announce := blazingBanner,
                 heat := some Heat.blazing }
      else
        { l with rate := 0, period := now, heat := some Heat.fire } := by
  have hpb : (l.period == now) = false := by simp [hp]
  simp only [updateHeat, hpb, hs]
  split_ifs <;> first | contradiction | rfl

theorem updateHeat_heatingUp_char (l : Logger) (now : Int) (hp : l.period ≠ now)
    (hs : l.state = HeatState.heatingUp) :
    updateHeat l now =
      if l.rate + 1 > l.rateOnFire then
        { l with rate := 0, period := now, announce := onFireBanner,
                 state := HeatState.onFire, firePeriod := now,
                 heat := some Heat.fire }
      else
        { l with rate := 0, period := now, heat := some Heat.heating } := by
  have hpb : (l.period == now) = false := by simp [hp]
  simp only [updateHeat, hpb, hs]
  split_ifs <;> first | contradiction | rfl

/-- Changing only the stored prefix commutes with `updateHeat`: the state
machine never reads nor writes it. -/
theorem updateHeat_pfx_indep (l : Logger) (p : String) (now : Int) :
    updateHeat { l with pfx := p } now = { updateHeat l now with pfx := p } := by
  by_cases hp : l.period = now
  · simp [updateHeat, hp]
  · have hpb : (l.period == now) = false := by simp [hp]
    cases hst : l.state <;>
      simp only [updateHeat, hpb, hst] <;>
      split_ifs <;> first | contradiction | rfl

/-- Changing only the scratch buffer commutes with `updateHeat`. -/
theorem updateHeat_buf_indep (l : Logger) (b : List Nat) (now : Int) :
    updateHeat { l with buf := b } now = { updateHeat l now with buf := b } := by
  by_cases hp : l.period = now
  · simp [updateHeat, hp]
  · have hpb : (l.period == now) = false := by simp [hp]
    cases hst : l.state <;>
      simp only [updateHeat, hpb, hst] <;>
      split_ifs <;> first | contradiction | rfl

/-- Fields that `updateHeat` never writes. -/
theorem updateHeat_keeps (l : Logger) (now : Int) :
    (updateHeat l now).term = l.term ∧ (updateHeat l now).pfx = l.pfx ∧
    (updateHeat l now).out = l.out ∧ (updateHeat l now).buf = l.buf ∧
    (updateHeat l now).rateHeatingUp = l.rateHeatingUp ∧
    (updateHeat l now).rateOnFire = l.rateOnFire ∧
    (updateHeat l now).periodsBlazing = l.periodsBlazing := by
  by_cases hp : l.period = now
  · simp [updateHeat, hp]
  · have hpb : (l.period == now) = false := by simp [hp]
    cases hst : l.state <;>
      simp only [updateHeat, hpb, hst] <;>
      split_ifs <;>
      first
        | contradiction
        | exact ⟨rfl, rfl, rfl, rfl, rfl, rfl, rfl⟩

/-- The bytes `Output` assembles (and writes): the pending banner after the
state advance, then the rendered message, then the missing newline. -/
theorem Output_buf (l : Logger) (now : Int) (s : List Nat)
    (f : List Nat → Option String) :
    (Output l now s f).1.buf =
      bannerPart (updateHeat l now) ++ renderMsg (updateHeat l now) s ++
        (if needsNl s then [10] else []) := by
  simp only [Output, updateHeat_buf_indep]
  split <;> rfl

/-- Emission never changes the terminal-mode flag. -/
theorem Output_term (l : Logger) (now : Int) (s : List Nat)
    (f : List Nat → Option String) :
    (Output l now s f).1.term = l.term := by
  simp only [Output, updateHeat_buf_indep]
  split <;> exact (updateHeat_keeps l now).1

/-- No public operation writes the terminal-mode flag. -/
theorem applyOp_term (l : Logger) (op : Op) : (applyOp l op).term = l.term := by
  cases op with
  | output now s => exact Output_term l now s _
  | setOutput w => rfl
  | setHeatingUp h => rfl
  | setOnFire f => rfl
  | setBlazing b => rfl
  | setPfxOp p => rfl

/-- The terminal-mode flag survives any sequence of public operations. -/
theorem runOps_term (ops : List Op) :
    ∀ (l : Logger), (runOps l ops).term = l.term := by
  induction ops with
  | nil => intro l; rfl
  | cons op ops ih =>
    intro l
    calc (runOps (applyOp l op) ops).term = (applyOp l op).term := ih _
    _ = l.term := applyOp_term l op

theorem trailingNewlines_append_ten (s : List Nat) :
    trailingNewlines (s ++ [10]) = trailingNewlines s + 1 := by
  simp [trailingNewlines, List.takeWhile_cons]

theorem trailingNewlines_of_getLast?_ne (s : List Nat)
    (h : s.getLast? ≠ some 10) : trailingNewlines s = 0 := by
  rcases hr : s.reverse with _ | ⟨a, t⟩
  · simp [trailingNewlines, hr]
  · have ha : s.getLast? = some a := by
      rw [← List.head?_reverse, hr]; rfl
    have hane : (a == 10) = false := by
      refine beq_eq_false_iff_ne.mpr ?_
      intro e
      exact h (by rw [ha, e])
    simp [trailingNewlines, hr, List.takeWhile_cons, hane]

theorem trailingNewlines_of_getLast?_eq (s : List Nat)
    (h : s.getLast? = some 10) : 1 ≤ trailingNewlines s := by
  rcases hr : s.reverse with _ | ⟨a, t⟩
  · exfalso
    have : s = [] := by
      have := congrArg List.reverse hr
      simpa using this
    rw [this] at h
    simp at h
  · have ha : s.getLast? = some a := by
      rw [← List.head?_reverse, hr]; rfl
    have : a = 10 := by
      rw [ha] at h
      exact (Option.some.injEq _ _ ▸ h).symm ▸ rfl
    subst this
    simp [trailingNewlines, hr, List.takeWhile_cons]

/-! ### Claim theorems -/

/-- C1, counterexample to the claim as stated: with thresholds
heating-up 0, on-fire 1 and blazing 1 set through the public setters and
a sustained 2-lines-per-second load from second 1 on, the
"Boomshakalaka!!! " banner is queued and emitted at the second-4
evaluation, yet the second-5 evaluation — state still OnFire, blazing
condition still holding — queues the very same banner AGAIN.  It is
re-queued (hence re-emitted) every second, not exactly once per episode. -/
theorem c1_counterexample :
    (Output lC1pre 4 [120] wOk).1.buf =
      announce blazingBanner ++ blazing [120] ++ [10] ∧
    lC1post.state = HeatState.onFire ∧
    lC1post.announce = [] ∧
    (updateHeat lC1post 5).announce = blazingBanner := by decide

/-- C1, amended: every per-second evaluation performed while the logger is
OnFire with evaluated rate >= onFireRate and
firePeriodStartSecond + blazingAfterPeriods < nowSecond queues the
"Boomshakalaka!!! " banner (so it is emitted once per such second, not
once per sustained-fire episode); the state stays OnFire, the transform
becomes the blazing one and firePeriodStartSecond is left unchanged,
which is why the condition keeps re-firing.  The evaluated rate is
l.rate + 1 because updateHeat counts the triggering call itself. -/
theorem c1_blazing_banner_requeued_every_second (l : Logger) (now : Int)
    (hp : l.period ≠ now) (hs : l.state = HeatState.onFire)
    (hr : ¬ l.rate + 1 < l.rateOnFire)
    (hb : l.firePeriod + l.periodsBlazing < now) :
    (updateHeat l now).announce = blazingBanner ∧
    (updateHeat l now).state = HeatState.onFire ∧
    (updateHeat l now).heat = some Heat.blazing ∧
    (updateHeat l now).firePeriod = l.firePeriod := by
  rw [updateHeat_onFire_char l now hp hs, if_neg hr, if_pos hb]
  exact ⟨rfl, hs, rfl, rfl⟩

/-- Witness for the amended C1 theorem at a concrete OnFire logger. -/
theorem c1_blazing_banner_requeued_every_second_witness :
    lw1.period ≠ 10 ∧ lw1.state = HeatState.onFire ∧
    ¬ lw1.rate + 1 < lw1.rateOnFire ∧
    lw1.firePeriod + lw1.periodsBlazing < 10 ∧
    (updateHeat lw1 10).announce = blazingBanner ∧
    (updateHeat lw1 10).state = HeatState.onFire ∧
    (updateHeat lw1 10).heat = some Heat.blazing ∧
    (updateHeat lw1 10).firePeriod = lw1.firePeriod := by
  refine ⟨by decide, by decide, by decide, by decide, ?_, ?_, ?_, ?_⟩
  · exact (c1_blazing_banner_requeued_every_second lw1 10 (by decide)
      (by decide) (by decide) (by decide)).1
  · exact (c1_blazing_banner_requeued_every_second lw1 10 (by decide)
      (by decide) (by decide) (by decide)).2.1
  · exact (c1_blazing_banner_requeued_every_second lw1 10 (by decide)
      (by decide) (by decide) (by decide)).2.2.1
  · exact (c1_blazing_banner_requeued_every_second lw1 10 (by decide)
      (by decide) (by decide) (by decide)).2.2.2

/-- C2, counterexample to the claim as stated: the transform selected by
the sustained-fire (blazing) condition is `blazing`, which on input "ab"
produces the SOLID red wrap, not the alternating two-tone rendering; and
the transform selected on entering OnFire is `fire`, which on "ab" is NOT
a single solid wrap.  The claim has the two transforms swapped. -/
theorem c2_counterexample :
    (updateHeat lC2blaze 6).heat = some Heat.blazing ∧
    applyHeat Heat.blazing [97, 98] = specSolidWrap red reset [97, 98] ∧
    applyHeat Heat.blazing [97, 98] ≠ specAlternating red yellow reset [97, 98] ∧
    (updateHeat lC2entry 1).heat = some Heat.fire ∧
    applyHeat Heat.fire [97, 98] ≠ specSolidWrap red reset [97, 98] := by decide

/-- C2, amended: the transform selected for the sustained-fire (blazing)
condition is the SOLID wrap (one red escape around the whole message plus
a reset), while the transform selected on entering OnFire is the
ALTERNATING byte-parity transform (red on even positions, yellow on odd,
reset appended) — the reverse of the claim's assignment. -/
theorem c2_transform_selection (l lE : Logger) (now nowE : Int)
    (txt : List Nat)
    (hp : l.period ≠ now) (hs : l.state = HeatState.onFire)
    (hr : ¬ l.rate + 1 < l.rateOnFire)
    (hb : l.firePeriod + l.periodsBlazing < now)
    (hpE : lE.period ≠ nowE) (hsE : lE.state = HeatState.heatingUp)
    (hrE : lE.rate + 1 > lE.rateOnFire) :
    (updateHeat l now).heat = some Heat.blazing ∧
    applyHeat Heat.blazing txt = specSolidWrap red reset txt ∧
    (updateHeat lE nowE).heat = some Heat.fire ∧
    applyHeat Heat.fire txt = specAlternating red yellow reset txt := by
  refine ⟨?_, blazing_eq_specSolidWrap txt, ?_, fire_eq_specAlternating txt⟩
  · rw [updateHeat_onFire_char l now hp hs, if_neg hr, if_pos hb]
  · rw [updateHeat_heatingUp_char lE nowE hpE hsE, if_pos hrE]

/-- Witness for the amended C2 theorem at concrete loggers and "ab". -/
theorem c2_transform_selection_witness :
    lC2blaze.period ≠ 6 ∧ lC2blaze.state = HeatState.onFire ∧
    ¬ lC2blaze.rate + 1 < lC2blaze.rateOnFire ∧
    lC2blaze.firePeriod + lC2blaze.periodsBlazing < 6 ∧
    lC2entry.period ≠ 1 ∧ lC2entry.state = HeatState.heatingUp ∧
    lC2entry.rate + 1 > lC2entry.rateOnFire ∧
    ((updateHeat lC2blaze 6).heat = some Heat.blazing ∧
     applyHeat Heat.blazing [97, 98] = specSolidWrap red reset [97, 98] ∧
     (updateHeat lC2entry 1).heat = some Heat.fire ∧
     applyHeat Heat.fire [97, 98] = specAlternating red yellow reset [97, 98]) := by
  refine ⟨by decide, by decide, by decide, by decide, by decide, by decide,
    by decide, ?_⟩
  exact c2_transform_selection lC2blaze lC2entry 6 1 [97, 98] (by decide)
    (by decide) (by decide) (by decide) (by decide) (by decide) (by decide)

/-- C3, counterexample to the claim as stated: with terminal mode disabled
and the one-byte banner "B" pending, emitting "m" writes the banner
wrapped in announcement escapes, so the output contains the escape byte 27
and is not the plain message plus a newline. -/
theorem c3_counterexample :
    lC3off.term = false ∧
    27 ∈ (Output lC3off 7 [109] wOk).1.buf ∧
    (Output lC3off 7 [109] wOk).1.buf ≠ [109] ∧
    (Output lC3off 7 [109] wOk).1.buf ≠ [109, 10] := by decide

/-- C3, amended: with terminal mode disabled the MESSAGE part of the
output is byte-identical to the input message plus at most one trailing
newline, regardless of heat state; but a pending banner (queued earlier
or by this call's state advance) is still emitted before it, wrapped in
announcement escapes — the banner path ignores the terminal-mode flag.
(No state reachable through the public interface has the flag disabled,
since nothing ever writes it; see the C10 theorem.) -/
theorem c3_plain_message_when_term_off (l : Logger) (now : Int)
    (s : List Nat) (f : List Nat → Option String) (ht : l.term = false) :
    (Output l now s f).1.buf =
      bannerPart (updateHeat l now) ++ s ++
        (if needsNl s then [10] else []) := by
  rw [Output_buf]
  have ht2 : (updateHeat l now).term = false := by
    rw [(updateHeat_keeps l now).1, ht]
  cases hh : (updateHeat l now).heat <;> simp [renderMsg, hh, ht2]

/-- Witness for the amended C3 theorem at a concrete logger with terminal
mode off. -/
theorem c3_plain_message_when_term_off_witness :
    lC3off.term = false ∧
    (Output lC3off 7 [109] wOk).1.buf =
      bannerPart (updateHeat lC3off 7) ++ [109] ++
        (if needsNl [109] then [10] else []) :=
  ⟨by decide, c3_plain_message_when_term_off lC3off 7 [109] wOk (by decide)⟩

/-- C4, confirmed: the stored prefix is never prepended to emitted lines.
For every logger state and message, changing the prefix (via SetPrefix)
changes neither the bytes written by emit nor the returned error; the
prefix only affects the value returned by the prefix getter. -/
theorem c4_pfx_not_emitted (l : Logger) (p : String) (now : Int)
    (s : List Nat) (f : List Nat → Option String) :
    (Output (setPfx l p) now s f).1.buf = (Output l now s f).1.buf ∧
    (Output (setPfx l p) now s f).2 = (Output l now s f).2 ∧
    getPfx (setPfx l p) = p := by
  have hb : (Output (setPfx l p) now s f).1.buf = (Output l now s f).1.buf := by
    rw [Output_buf, Output_buf, setPfx, updateHeat_pfx_indep]
    rfl
  refine ⟨hb, ?_, rfl⟩
  show f ((Output (setPfx l p) now s f).1.buf) = f ((Output l now s f).1.buf)
  exact congrArg f hb

/-- C5, confirmed: a per-second evaluation in state OnFire never yields
Cold, and whenever the evaluated rate (l.rate + 1, counting the
triggering call) is below onFireRate it yields CoolingDown with the
warming (solid yellow) transform. -/
theorem c5_onfire_drops_to_coolingdown (l : Logger) (now : Int)
    (hs : l.state = HeatState.onFire) :
    (updateHeat l now).state ≠ HeatState.cold ∧
    (l.period ≠ now → l.rate + 1 < l.rateOnFire →
      (updateHeat l now).state = HeatState.coolingDown ∧
      (updateHeat l now).heat = some Heat.heating) := by
  constructor
  · by_cases hp : l.period = now
    · rw [updateHeat_same_period l now hp]
      simp [hs]
    · rw [updateHeat_onFire_char l now hp hs]
      split_ifs <;> simp [hs]
  · intro hp hr
    rw [updateHeat_onFire_char l now hp hs, if_pos hr]
    exact ⟨rfl, rfl⟩

/-- Witness for the C5 theorem at a concrete OnFire logger with rate 5. -/
theorem c5_onfire_drops_to_coolingdown_witness :
    lw5.state = HeatState.onFire ∧ lw5.period ≠ 1 ∧
    lw5.rate + 1 < lw5.rateOnFire ∧
    (updateHeat lw5 1).state ≠ HeatState.cold ∧
    (updateHeat lw5 1).state = HeatState.coolingDown ∧
    (updateHeat lw5 1).heat = some Heat.heating := by
  refine ⟨by decide, by decide, by decide, ?_, ?_, ?_⟩
  · exact (c5_onfire_drops_to_coolingdown lw5 1 (by decide)).1
  · exact ((c5_onfire_drops_to_coolingdown lw5 1 (by decide)).2
      (by decide) (by decide)).1
  · exact ((c5_onfire_drops_to_coolingdown lw5 1 (by decide)).2
      (by decide) (by decide)).2

/-- C6, confirmed: when updateHeat runs within the current second bucket
(floor(now) = currentPeriodStartSecond), the line counter is incremented
by one and nothing else changes: state, transform, pending banner,
firePeriodStartSecond, currentPeriodStartSecond and all three thresholds
are untouched. -/
theorem c6_same_second_increments_only (l : Logger) (now : Int)
    (h : l.period = now) :
    (updateHeat l now).rate = l.rate + 1 ∧
    (updateHeat l now).state = l.state ∧
    (updateHeat l now).heat = l.heat ∧
    (updateHeat l now).announce = l.announce ∧
    (updateHeat l now).firePeriod = l.firePeriod ∧
    (updateHeat l now).period = l.period ∧
    (updateHeat l now).rateHeatingUp = l.rateHeatingUp ∧
    (updateHeat l now).rateOnFire = l.rateOnFire ∧
    (updateHeat l now).periodsBlazing = l.periodsBlazing := by
  rw [updateHeat_same_period l now h]
  exact ⟨rfl, rfl, rfl, rfl, rfl, rfl, rfl, rfl, rfl⟩

/-- Witness for the C6 theorem on a fresh logger in its own period. -/
theorem c6_same_second_increments_only_witness :
    (New 0 "").period = 0 ∧
    (updateHeat (New 0 "") 0).rate = (New 0 "").rate + 1 ∧
    (updateHeat (New 0 "") 0).state = (New 0 "").state ∧
    (updateHeat (New 0 "") 0).heat = (New 0 "").heat ∧
    (updateHeat (New 0 "") 0).announce = (New 0 "").announce ∧
    (updateHeat (New 0 "") 0).firePeriod = (New 0 "").firePeriod ∧
    (updateHeat (New 0 "") 0).period = (New 0 "").period ∧
    (updateHeat (New 0 "") 0).rateHeatingUp = (New 0 "").rateHeatingUp ∧
    (updateHeat (New 0 "") 0).rateOnFire = (New 0 "").rateOnFire ∧
    (updateHeat (New 0 "") 0).periodsBlazing = (New 0 "").periodsBlazing :=
  ⟨by decide, c6_same_second_increments_only (New 0 "") 0 (by decide)⟩

/-- C7, counterexample to the claim as stated: the message "a\n\n"
already ends in a newline, emit appends nothing, and the written bytes
end in TWO trailing newlines, not exactly one. -/
theorem c7_counterexample :
    ([97, 10, 10] : List Nat).getLast? = some 10 ∧
    (Output lC7plain 7 [97, 10, 10] wOk).1.buf = [97, 10, 10] ∧
    trailingNewlines (Output lC7plain 7 [97, 10, 10] wOk).1.buf = 2 := by
  decide

/-- C7, amended: emit appends exactly one newline when the message is
empty or does not end in a newline, and appends none when it does; hence,
when no banner is pending and no transform is active, the written bytes
are the message plus the conditional newline and end in exactly
max(1, k) newlines, where k is the number of trailing newlines of the
message itself — exactly one precisely when the message ends in at most
one newline. -/
theorem c7_newline_discipline (l : Logger) (now : Int) (s : List Nat)
    (f : List Nat → Option String)
    (hb : (updateHeat l now).announce = [])
    (hh : (updateHeat l now).heat = none) :
    (Output l now s f).1.buf = s ++ (if needsNl s then [10] else []) ∧
    trailingNewlines (Output l now s f).1.buf = max 1 (trailingNewlines s) := by
  have hbuf : (Output l now s f).1.buf =
      s ++ (if needsNl s then [10] else []) := by
    rw [Output_buf]
    simp [bannerPart, hb, renderMsg, hh]
  refine ⟨hbuf, ?_⟩
  rw [hbuf]
  by_cases hnl : needsNl s = true
  · rw [if_pos hnl]
    have h0 : trailingNewlines s = 0 := by
      rcases (by simpa [needsNl, List.isEmpty_iff] using hnl :
          s = [] ∨ ¬ s.getLast? = some 10) with he | hne
      · subst he; rfl
      · exact trailingNewlines_of_getLast?_ne s hne
    rw [trailingNewlines_append_ten, h0]
    decide
  · rw [if_neg hnl]
    have hlast : s.getLast? = some 10 := by
      rcases (by simpa [needsNl, List.isEmpty_iff] using hnl :
          ¬ (s = [] ∨ ¬ s.getLast? = some 10)) with h
      exact not_not.mp (not_or.mp h).2
    rw [List.append_nil]
    exact (Nat.max_eq_right (trailingNewlines_of_getLast?_eq s hlast)).symm

/-- Witness for the C7 theorem on a fresh logger and message "a". -/
theorem c7_newline_discipline_witness :
    (updateHeat (New 0 "") 0).announce = [] ∧
    (updateHeat (New 0 "") 0).heat = none ∧
    (Output (New 0 "") 0 [97] wOk).1.buf =
      [97] ++ (if needsNl [97] then [10] else []) ∧
    trailingNewlines (Output (New 0 "") 0 [97] wOk).1.buf =
      max 1 (trailingNewlines [97]) := by
  refine ⟨by decide, by decide, ?_, ?_⟩
  · exact (c7_newline_discipline (New 0 "") 0 [97] wOk (by decide)
      (by decide)).1
  · exact (c7_newline_discipline (New 0 "") 0 [97] wOk (by decide)
      (by decide)).2

/-- C8, confirmed: emit returns exactly what the destination's single
write call returns on the assembled buffer (no retry, no translation),
and the logger state after emit does not depend on the write outcome: two
destinations whose writes behave arbitrarily differently leave the logger
in the same state. -/
theorem c8_error_propagated_state_unchanged (l : Logger) (now : Int)
    (s : List Nat) (f g : List Nat → Option String) :
    (Output l now s f).2 = f ((Output l now s f).1.buf) ∧
    (Output l now s f).1 = (Output l now s g).1 :=
  ⟨rfl, rfl⟩

/-- C9, confirmed: for every destination and prefix, New yields state
Cold, terminal mode enabled, heating-up threshold 10, on-fire threshold
20 and blazing duration threshold 5. -/
theorem c9_constructor_defaults (out : Nat) (p : String) :
    (New out p).state = HeatState.cold ∧
    (New out p).term = true ∧
    (New out p).rateHeatingUp = 10 ∧
    (New out p).rateOnFire = 20 ∧
    (New out p).periodsBlazing = 5 :=
  ⟨rfl, rfl, rfl, rfl, rfl⟩

/-- C10, confirmed: no public operation writes the terminal-mode flag, so
after any sequence of public operations on a fresh logger the flag is
still true, and consequently whenever the state machine has an active
transform, emit really applies it to the message bytes. -/
theorem c10_term_never_disabled (out : Nat) (p : String) (ops : List Op)
    (now : Int) (s : List Nat) (f : List Nat → Option String) (h : Heat)
    (hh : (updateHeat (runOps (New out p) ops) now).heat = some h) :
    (runOps (New out p) ops).term = true ∧
    (Output (runOps (New out p) ops) now s f).1.buf =
      bannerPart (updateHeat (runOps (New out p) ops) now) ++
        applyHeat h s ++ (if needsNl s then [10] else []) := by
  have ht : (runOps (New out p) ops).term = true :=
    runOps_term ops (New out p)
  refine ⟨ht, ?_⟩
  rw [Output_buf]
  have ht2 : (updateHeat (runOps (New out p) ops) now).term = true := by
    rw [(updateHeat_keeps _ now).1, ht]
  simp [renderMsg, hh, ht2]

/-- Witness for the C10 theorem on a reachable HeatingUp logger. -/
theorem c10_term_never_disabled_witness :
    (updateHeat lw10 2).heat = some Heat.heating ∧
    lw10.term = true ∧
    (Output lw10 2 [97] wOk).1.buf =
      bannerPart (updateHeat lw10 2) ++ applyHeat Heat.heating [97] ++
        (if needsNl [97] then [10] else []) := by
  refine ⟨by decide, ?_, ?_⟩
  · exact (c10_term_never_disabled 0 "" [Op.setHeatingUp 0, Op.output 1 [120]]
      2 [97] wOk Heat.heating (by decide)).1
  · exact (c10_term_never_disabled 0 "" [Op.setHeatingUp 0, Op.output 1 [120]]
      2 [97] wOk Heat.heating (by decide)).2

end Logjam
